import Mathlib

/-!
Verification of the bill normalization and reconciliation engine of the
DATTU-Stock-Management repository.

The development shallowly embeds two source modules:

* `src/backend/extraction/ai_extractor.py` — the post-processing of raw
  line items returned by the extraction service (amount backfill, phantom
  discount correction, charge-vs-product classification);
* `src/backend/analysis/inventory_analyzer.py` — the `InventoryAnalyzer`
  (date normalization, date-range validation, aggregation of purchase and
  sales bills into `InventoryItem`s, status classification, top sellers,
  insights).

Modelling conventions:
* Python floats are modelled as rationals (`ℚ`); every arithmetic
  operation the claims mention is exact in double precision at the
  inputs considered, and the code performs no operation whose float
  rounding is observable by the claims.
* A JSON field that is absent or null is modelled as `none`; the code
  reads such fields with `dict.get(key, default) or default`, which maps
  absent, null and `0` (or the empty string) to the default.
* Python `dict`s keyed by item name are modelled as association lists in
  insertion order, which is exactly the iteration order of a Python dict.
* Python `str.lower` is modelled as ASCII lowering (all keyword matching
  and all concrete inputs in this development are ASCII).
-/

/-! ## Data model of the extractor (ai_extractor.py) -/

/-- `LineItem` dataclass of `ai_extractor.py`: a single product line of a
bill, with quantity, unit rate, discount percentage and line amount. -/
structure LineItem where
  item_name : String
  quantity : ℚ
  rate : ℚ := 0
  discount_percent : ℚ := 0
  amount : ℚ := 0
deriving Repr, DecidableEq

/-- `AdditionalCharge` dataclass of `ai_extractor.py`: a non-product
service charge (packing, freight, ...). -/
structure AdditionalCharge where
  charge_name : String
  amount : ℚ := 0
  quantity : ℚ := 0
  rate : ℚ := 0
deriving Repr, DecidableEq

/-- One raw line item of the JSON object decoded from the AI response
(the elements of `data.get("line_items", [])`).  `none` models a field
that is absent or null. -/
structure RawLineItem where
  item_name : Option String := none
  quantity : Option ℚ := none
  rate : Option ℚ := none
  discount_percent : Option ℚ := none
  amount : Option ℚ := none
deriving Repr, DecidableEq

/-! ## Character-level string helpers

Python string primitives used by the two modules, implemented over
`String.data` so that they compute by structural recursion. -/

/-- ASCII lowering of a string, modelling Python `str.lower()` on the
ASCII inputs this development considers. -/
def pyLowerStr (s : String) : String := ⟨s.data.map Char.toLower⟩

/-- Decides whether `needle` is a prefix of `hay` (character lists). -/
def matchPrefixChars : List Char → List Char → Bool
  | [], _ => true
  | _ :: _, [] => false
  | a :: as, b :: bs => a = b && matchPrefixChars as bs

/-- Decides whether `needle` occurs as a contiguous substring of `hay`,
modelling the Python `needle in hay` test on strings. -/
def containsSubChars : List Char → List Char → Bool
  | [], needle => matchPrefixChars needle []
  | c :: rest, needle => matchPrefixChars needle (c :: rest) || containsSubChars rest needle

/-! ## The classifier (ai_extractor.py, lines 272-325) -/

/-- `CHARGE_KEYWORDS` of `ai_extractor.py` (lines 273-278). -/
def CHARGE_KEYWORDS : List String :=
  ["packing", "forwarding", "freight", "shipping", "handling",
   "delivery", "transport", "transportation", "courier",
   "service charge", "service fee", "insurance", "loading",
   "unloading", "charges", "charge", "p&f", "p & f"]

/-- `is_charge` of `ai_extractor.py` (lines 280-283): an item name is a
charge when its lowercase form contains any charge keyword. -/
def is_charge (item_name : String) : Bool :=
  CHARGE_KEYWORDS.any (fun keyword => containsSubChars (pyLowerStr item_name).data keyword.data)

/-- Line 287: `qty = float(item.get("quantity", 1) or 1)` — an absent,
null or zero quantity becomes 1. -/
def rawQty (item : RawLineItem) : ℚ :=
  match item.quantity with
  | none => 1
  | some q => if q = 0 then 1 else q

/-- Line 288: `rate = float(item.get("rate", 0) or 0)`. -/
def rawRate (item : RawLineItem) : ℚ := item.rate.getD 0

/-- Line 289: `discount_percent = float(item.get("discount_percent", 0) or 0)`. -/
def rawDiscount (item : RawLineItem) : ℚ := item.discount_percent.getD 0

/-- Line 290: `amount = float(item.get("amount", 0) or 0)`. -/
def rawAmount (item : RawLineItem) : ℚ := item.amount.getD 0

/-- Line 291: `item_name = item.get("item_name", "Unknown")` — only an
absent name field falls back to the sentinel `"Unknown"`; a present
(possibly empty) string is kept as is. -/
def rawName (item : RawLineItem) : String := item.item_name.getD "Unknown"

/-- Lines 293-298, the amount backfill: if the extracted amount is 0 and
the rate is positive, the amount is recomputed from quantity, rate and
the declared discount; otherwise the extracted amount is kept. -/
def backfilledAmount (item : RawLineItem) : ℚ :=
  if rawAmount item = 0 ∧ rawRate item > 0 then
    if rawDiscount item > 0 then
      rawQty item * rawRate item * (1 - rawDiscount item / 100)
    else
      rawQty item * rawRate item
  else rawAmount item

/-- Lines 300-308, the phantom discount check: a positive declared
discount is zeroed when the (backfilled) amount is positive, the rate is
positive, and `|qty * rate - amount| < 1.0`. -/
def correctedDiscount (item : RawLineItem) : ℚ :=
  if backfilledAmount item > 0 ∧ rawRate item > 0 ∧ rawDiscount item > 0 ∧
      |rawQty item * rawRate item - backfilledAmount item| < 1 then 0
  else rawDiscount item

/-- Lines 310-325: one raw line item is routed either to
`additional_charges` (keeping only its name and amount) or to
`line_items` (with the backfilled amount and corrected discount). -/
def processRawItem (item : RawLineItem) : Sum LineItem AdditionalCharge :=
  if is_charge (rawName item) then
    Sum.inr { charge_name := rawName item, amount := backfilledAmount item }
  else
    Sum.inl { item_name := rawName item, quantity := rawQty item, rate := rawRate item,
              discount_percent := correctedDiscount item, amount := backfilledAmount item }

/-- The loop of lines 286-325 over `data.get("line_items", [])`,
collecting the emitted `LineItem`s and `AdditionalCharge`s in order. -/
def classifyItems : List RawLineItem → List LineItem × List AdditionalCharge
  | [] => ([], [])
  | item :: rest =>
    let p := classifyItems rest
    match processRawItem item with
    | Sum.inl li => (li :: p.1, p.2)
    | Sum.inr ch => (p.1, ch :: p.2)

/-! ## Data model of the analyzer (inventory_analyzer.py) -/

/-- `StockStatus` enum of `inventory_analyzer.py`. -/
inductive StockStatus where
  | surplus
  | deficit
  | balanced
  | low_stock
deriving Repr, DecidableEq

/-- `InventoryItem` dataclass of `inventory_analyzer.py`: aggregated
inventory data for a single (normalized) item name. -/
structure InventoryItem where
  item_name : String
  purchased_qty : ℚ := 0
  sold_qty : ℚ := 0
  surplus_deficit : ℚ := 0
  status : StockStatus := StockStatus.balanced
  purchased_value : ℚ := 0
  sold_value : ℚ := 0
deriving Repr, DecidableEq

/-- One bill as consumed by `InventoryAnalyzer.analyze`: a dict with a
`line_items` list and a `date` string (absent fields read through
`bill.get` with these defaults). -/
structure Bill where
  line_items : List LineItem := []
  date : String := ""
deriving Repr, DecidableEq

/-- `InventoryAnalysis` dataclass of `inventory_analyzer.py`: the
complete result of `analyze`.  The date ranges are `(start, end)` pairs,
`(none, none)` when the bill set has no parsable dates. -/
structure InventoryAnalysis where
  items : List InventoryItem := []
  surplus_items : List String := []
  deficit_items : List String := []
  low_stock_items : List String := []
  top_selling_items : List String := []
  insights : List String := []
  purchase_bill_count : ℕ := 0
  sales_bill_count : ℕ := 0
  total_purchase_value : ℚ := 0
  total_sales_value : ℚ := 0
  purchase_date_range : Option String × Option String := (none, none)
  sales_date_range : Option String × Option String := (none, none)
  date_mismatch_warning : String := ""
deriving Repr, DecidableEq

/-- `LOW_STOCK_THRESHOLD = 10` of `inventory_analyzer.py` (line 103). -/
def LOW_STOCK_THRESHOLD : ℚ := 10

/-! ## Date normalization (inventory_analyzer.py, lines 262-308)

`_normalize_date` strips the input and tries `datetime.strptime` with a
fixed list of formats, returning the first successful parse rendered as
`DD/MM/YYYY`; if no format matches, the (stripped) input is returned
unchanged when it still looks like one-or-two digits, a separator
(slash, hyphen or dot), one-or-two digits, a separator, and two-to-four
digits, else `None`.  The parsers below reproduce the CPython `strptime`
behaviour for the formats listed in the source: `%d` and `%m` match one
or two digits (two-digit values bounded by 31 and 12 respectively, and
`00` excluded), `%Y` matches exactly four digits, `%y` exactly two
(mapped to 2000-2068 / 1969-1999), `%b`/`%B` match month names case
insensitively, a space in the format matches a run of whitespace, the
whole string must be consumed, and the resulting calendar date must be
valid (`datetime` raises on day-out-of-range, which makes `strptime`
fall through to the next format). -/

/-- Strips leading and trailing whitespace, modelling Python `str.strip()`. -/
def pyStripChars (cs : List Char) : List Char :=
  ((cs.dropWhile Char.isWhitespace).reverse.dropWhile Char.isWhitespace).reverse

/-- Takes at most `n` leading digits. -/
def takeDigitsAux : ℕ → List Char → List Char × List Char
  | _, [] => ([], [])
  | 0, cs => ([], cs)
  | n + 1, c :: cs =>
    if c.isDigit then
      let p := takeDigitsAux n cs
      (c :: p.1, p.2)
    else ([], c :: cs)

/-- Numeric value of a digit string. -/
def digitsToNat (ds : List Char) : ℕ := ds.foldl (fun a c => 10 * a + (c.toNat - 48)) 0

/-- Parses a `%d`-style or `%m`-style field: one digit `1-9`, or two
digits with value between 1 and `hi` (`hi` is 31 for days, 12 for
months). -/
def parseField2 (hi : ℕ) (cs : List Char) : Option (ℕ × List Char) :=
  let p := takeDigitsAux 2 cs
  let v := digitsToNat p.1
  if p.1.length = 1 then (if 1 ≤ v then some (v, p.2) else none)
  else if p.1.length = 2 then (if 1 ≤ v ∧ v ≤ hi then some (v, p.2) else none)
  else none

/-- Parses `%Y`: exactly four digits. -/
def parseYear4 (cs : List Char) : Option (ℕ × List Char) :=
  let p := takeDigitsAux 4 cs
  if p.1.length = 4 then some (digitsToNat p.1, p.2) else none

/-- Parses `%y`: exactly two digits, `00-68` mapped to `2000-2068` and
`69-99` to `1969-1999` as CPython does. -/
def parseYear2 (cs : List Char) : Option (ℕ × List Char) :=
  let p := takeDigitsAux 2 cs
  if p.1.length = 2 then
    let v := digitsToNat p.1
    some ((if v < 69 then 2000 + v else 1900 + v), p.2)
  else none

/-- Consumes one expected literal character. -/
def parseChar (c : Char) : List Char → Option (List Char)
  | [] => none
  | x :: xs => if x = c then some xs else none

/-- Consumes a non-empty run of whitespace (a space in a `strptime`
format matches `\s+`). -/
def parseWs1 : List Char → Option (List Char)
  | [] => none
  | c :: cs => if c.isWhitespace then some (cs.dropWhile Char.isWhitespace) else none

/-- Month abbreviations recognized by `%b`. -/
def MONTH_ABBRS : List (String × ℕ) :=
  [("jan", 1), ("feb", 2), ("mar", 3), ("apr", 4), ("may", 5), ("jun", 6),
   ("jul", 7), ("aug", 8), ("sep", 9), ("oct", 10), ("nov", 11), ("dec", 12)]

/-- Full month names recognized by `%B`. -/
def MONTH_NAMES : List (String × ℕ) :=
  [("january", 1), ("february", 2), ("march", 3), ("april", 4), ("may", 5),
   ("june", 6), ("july", 7), ("august", 8), ("september", 9), ("october", 10),
   ("november", 11), ("december", 12)]

/-- Matches a month name from `tbl` case-insensitively at the head of
`cs` (no name in either table is a proper prefix of another in the same
table, so first-match is unambiguous). -/
def matchMonthName (tbl : List (String × ℕ)) (cs : List Char) : Option (ℕ × List Char) :=
  tbl.findSome? (fun p =>
    if (cs.take p.1.length).map Char.toLower = p.1.data then some (p.2, cs.drop p.1.length)
    else none)

/-- Gregorian leap year rule used by `datetime`. -/
def isLeapYear (y : ℕ) : Bool := (y % 4 = 0 && y % 100 ≠ 0) || y % 400 = 0

/-- Number of days of month `m` in year `y`. -/
def daysInMonth (y m : ℕ) : ℕ :=
  if m = 2 then (if isLeapYear y then 29 else 28)
  else if m = 4 ∨ m = 6 ∨ m = 9 ∨ m = 11 then 30
  else 31

/-- Validity check performed by the `datetime` constructor. -/
def validDate (y m d : ℕ) : Bool :=
  decide (1 ≤ y ∧ y ≤ 9999 ∧ 1 ≤ m ∧ m ≤ 12 ∧ 1 ≤ d) && decide (d ≤ daysInMonth y m)

/-- Parser for `"%d/%m/%Y"` and `"%d-%m-%Y"` (`sep` is the separator). -/
def parse_dmY (sep : Char) (cs : List Char) : Option (ℕ × ℕ × ℕ) := do
  let (d, r1) ← parseField2 31 cs
  let r2 ← parseChar sep r1
  let (m, r3) ← parseField2 12 r2
  let r4 ← parseChar sep r3
  let (y, r5) ← parseYear4 r4
  if r5 = [] then some (y, m, d) else none

/-- Parser for `"%Y-%m-%d"`. -/
def parse_Ymd (cs : List Char) : Option (ℕ × ℕ × ℕ) := do
  let (y, r1) ← parseYear4 cs
  let r2 ← parseChar '-' r1
  let (m, r3) ← parseField2 12 r2
  let r4 ← parseChar '-' r3
  let (d, r5) ← parseField2 31 r4
  if r5 = [] then some (y, m, d) else none

/-- Parser for `"%d %b %Y"` and `"%d %B %Y"` (`tbl` selects abbreviated
or full month names). -/
def parse_dbY (tbl : List (String × ℕ)) (cs : List Char) : Option (ℕ × ℕ × ℕ) := do
  let (d, r1) ← parseField2 31 cs
  let r2 ← parseWs1 r1
  let (m, r3) ← matchMonthName tbl r2
  let r4 ← parseWs1 r3
  let (y, r5) ← parseYear4 r4
  if r5 = [] then some (y, m, d) else none

/-- Parser for `"%d-%b-%y"` and `"%d-%b-%Y"` (`yearParse` selects the
two- or four-digit year field). -/
def parse_dby (yearParse : List Char → Option (ℕ × List Char)) (cs : List Char) :
    Option (ℕ × ℕ × ℕ) := do
  let (d, r1) ← parseField2 31 cs
  let r2 ← parseChar '-' r1
  let (m, r3) ← matchMonthName MONTH_ABBRS r2
  let r4 ← parseChar '-' r3
  let (y, r5) ← yearParse r4
  if r5 = [] then some (y, m, d) else none

/-- One `strptime` attempt: syntactic parse plus calendar validation. -/
def tryFormat (pf : List Char → Option (ℕ × ℕ × ℕ)) (cs : List Char) : Option (ℕ × ℕ × ℕ) := do
  let (y, m, d) ← pf cs
  if validDate y m d then some (y, m, d) else none

/-- The format list of `_normalize_date` (lines 284-293), in source
order. -/
def FORMATS : List (List Char → Option (ℕ × ℕ × ℕ)) :=
  [parse_dmY '/', parse_dmY '-', parse_Ymd,
   parse_dbY MONTH_ABBRS, parse_dbY MONTH_NAMES,
   parse_dby parseYear2, parse_dby parseYear4]

/-- Tries the formats in order, returning the first success. -/
def tryFormats (cs : List Char) : Option (ℕ × ℕ × ℕ) :=
  FORMATS.findSome? (fun pf => tryFormat pf cs)

/-- Two-digit zero padding of `strftime`. -/
def pad2 (n : ℕ) : String := if n < 10 then "0" ++ toString n else toString n

/-- Four-digit zero padding for the year (all dates the analyzer can
produce have four-digit years). -/
def pad4 (n : ℕ) : String :=
  if n < 10 then "000" ++ toString n
  else if n < 100 then "00" ++ toString n
  else if n < 1000 then "0" ++ toString n
  else toString n

/-- `dt.strftime("%d/%m/%Y")` (line 300). -/
def formatDDMMYYYY (y m d : ℕ) : String := pad2 d ++ "/" ++ pad2 m ++ "/" ++ pad4 y

/-- Separator class of the fallback pattern (line 305). -/
def isDateSep (c : Char) : Bool := c = '/' || c = '-' || c = '.'

/-- The fallback regex test of line 305: a prefix of the string shaped
one-or-two digits, separator, one-or-two digits, separator, two-to-four
digits, where a separator is a slash, hyphen or dot (anchored at the
start only, via `re.match`). -/
def fallbackDateLike (cs : List Char) : Bool :=
  let p1 := takeDigitsAux 2 cs
  if p1.1.length = 0 then false
  else
    match p1.2 with
    | [] => false
    | c :: r2 =>
      if isDateSep c then
        let p2 := takeDigitsAux 2 r2
        if p2.1.length = 0 then false
        else
          match p2.2 with
          | [] => false
          | c2 :: r4 => if isDateSep c2 then decide ((takeDigitsAux 4 r4).1.length ≥ 2) else false
      else false

/-- `_normalize_date` (lines 262-308). -/
def normalize_date (date_str : String) : Option String :=
  if date_str = "" then none
  else
    match tryFormats (pyStripChars date_str.data) with
    | some (y, m, d) => some (formatDDMMYYYY y m d)
    | none =>
      if fallbackDateLike (pyStripChars date_str.data) then
        some ⟨pyStripChars date_str.data⟩
      else none

/-- `_extract_dates` (lines 242-260): normalized dates of the bills
whose date field is non-empty and not all whitespace, in bill order. -/
def extract_dates (bill_data : List Bill) : List String :=
  bill_data.filterMap (fun b =>
    if b.date ≠ "" ∧ (⟨pyStripChars b.date.data⟩ : String) ≠ "" then normalize_date b.date
    else none)

/-! ## Python string comparison and min/max (used by lines 166 and 168)

`min(dates)` / `max(dates)` compare the normalized date STRINGS with
Python string ordering, i.e. lexicographically by code point. -/

/-- Python string `<`, lexicographic by code point. -/
def pyStrLt : List Char → List Char → Bool
  | [], [] => false
  | [], _ :: _ => true
  | _ :: _, [] => false
  | a :: as, b :: bs => if a < b then true else if b < a then false else pyStrLt as bs

/-- Python `min` over a non-empty list of strings (first minimum wins). -/
def pyMinStr : List String → String
  | [] => ""
  | x :: xs => xs.foldl (fun acc c => if pyStrLt c.data acc.data then c else acc) x

/-- Python `max` over a non-empty list of strings. -/
def pyMaxStr : List String → String
  | [] => ""
  | x :: xs => xs.foldl (fun acc c => if pyStrLt acc.data c.data then c else acc) x

/-! ## Date-range validation (inventory_analyzer.py, lines 310-341) -/

/-- Python truthiness test `not x` for an optional string. -/
def optFalsy : Option String → Bool
  | none => true
  | some s => s = ""

/-- Rendering of an optional string in an f-string (`None` when absent,
unreachable for the ranges the analyzer builds). -/
def optStr : Option String → String
  | none => "None"
  | some s => s

/-- `_validate_date_ranges` (lines 310-341): empty string when either
start is falsy or both ranges coincide, otherwise the mismatch warning. -/
def validate_date_ranges (purchase_range sales_range : Option String × Option String) : String :=
  if optFalsy purchase_range.1 || optFalsy sales_range.1 then ""
  else if purchase_range.1 ≠ sales_range.1 ∨ purchase_range.2 ≠ sales_range.2 then
    "DATE MISMATCH WARNING: Purchase bills are from " ++ optStr purchase_range.1 ++
      " to " ++ optStr purchase_range.2 ++ ", but Sales bills are from " ++
      optStr sales_range.1 ++ " to " ++ optStr sales_range.2 ++
      ". For accurate inventory analysis, ensure both bill sets cover the same date range."
  else ""

/-! ## Item-name normalization (inventory_analyzer.py, lines 343-351) -/

/-- Helper of `pySplitWs`: `acc` holds the reversed characters of the
word currently being read. -/
def pySplitWsAux : List Char → List Char → List (List Char)
  | [], acc => if acc = [] then [] else [acc.reverse]
  | c :: cs, acc =>
    if c.isWhitespace then
      if acc = [] then pySplitWsAux cs [] else acc.reverse :: pySplitWsAux cs []
    else pySplitWsAux cs (c :: acc)

/-- Splits a character list on whitespace runs, dropping empty pieces,
modelling Python `str.split()` with no argument. -/
def pySplitWs (cs : List Char) : List (List Char) := pySplitWsAux cs []

/-- Joins pieces with single spaces, modelling `' '.join(...)`. -/
def pyJoinSpace : List (List Char) → List Char
  | [] => []
  | [p] => p
  | p :: q :: rest => p ++ ' ' :: pyJoinSpace (q :: rest)

/-- `_normalize_item_name` (lines 343-351): a falsy (empty) name becomes
the sentinel `"Unknown Item"`; otherwise the name is lowercased and its
whitespace collapsed (`' '.join(name.lower().strip().split())`). -/
def normalize_item_name (name : String) : String :=
  if name = "" then "Unknown Item"
  else ⟨pyJoinSpace (pySplitWs (name.data.map Char.toLower))⟩

/-! ## Aggregation (inventory_analyzer.py, lines 176-207)

`item_map` is a Python dict in insertion order: an update mutates the
entry in place, a new name is appended at the end. -/

/-- Creates the entry on first sight (`InventoryItem(item_name=name)`)
or updates the existing entry with `f`, keeping insertion order. -/
def updateItem : List (String × InventoryItem) → String → (InventoryItem → InventoryItem) →
    List (String × InventoryItem)
  | [], name, f => [(name, f { item_name := name })]
  | (k, v) :: rest, name, f =>
    if k = name then (k, f v) :: rest else (k, v) :: updateItem rest name f

/-- Lines 183-192, one purchase line item: `purchased_qty += quantity`;
when `amount > 0` also `purchased_value += amount` and the running
`total_purchase_value += amount` (second component of the accumulator). -/
def stepPurchase (acc : List (String × InventoryItem) × ℚ) (item : LineItem) :
    List (String × InventoryItem) × ℚ :=
  let name := normalize_item_name item.item_name
  (updateItem acc.1 name (fun it =>
      let it2 := { it with purchased_qty := it.purchased_qty + item.quantity }
      if item.amount > 0 then { it2 with purchased_value := it2.purchased_value + item.amount }
      else it2),
   if item.amount > 0 then acc.2 + item.amount else acc.2)

/-- Lines 198-207, one sales line item: `sold_qty += quantity`; when
`amount > 0` also `sold_value += amount` and `total_sales_value`. -/
def stepSale (acc : List (String × InventoryItem) × ℚ) (item : LineItem) :
    List (String × InventoryItem) × ℚ :=
  let name := normalize_item_name item.item_name
  (updateItem acc.1 name (fun it =>
      let it2 := { it with sold_qty := it.sold_qty + item.quantity }
      if item.amount > 0 then { it2 with sold_value := it2.sold_value + item.amount }
      else it2),
   if item.amount > 0 then acc.2 + item.amount else acc.2)

/-- Lines 180-192: fold of one purchase bill. -/
def billPurchaseStep (acc : List (String × InventoryItem) × ℚ) (bill : Bill) :
    List (String × InventoryItem) × ℚ :=
  bill.line_items.foldl stepPurchase acc

/-- Lines 195-207: fold of one sales bill. -/
def billSaleStep (acc : List (String × InventoryItem) × ℚ) (bill : Bill) :
    List (String × InventoryItem) × ℚ :=
  bill.line_items.foldl stepSale acc

/-- The item map and total purchase value after the purchase loop. -/
def purchaseAcc (purchase_data : List Bill) : List (String × InventoryItem) × ℚ :=
  purchase_data.foldl billPurchaseStep ([], 0)

/-- The item map and total sales value after both loops. -/
def salesAcc (purchase_data sales_data : List Bill) : List (String × InventoryItem) × ℚ :=
  sales_data.foldl billSaleStep ((purchaseAcc purchase_data).1, 0)

/-- The fully aggregated item map of `analyze`. -/
def itemMap (purchase_data sales_data : List Bill) : List (String × InventoryItem) :=
  (salesAcc purchase_data sales_data).1

/-! ## Metrics and classification (inventory_analyzer.py, lines 209-226) -/

/-- The body of the metrics loop for one item: `surplus_deficit`
becomes `purchased_qty - sold_qty` and the status is classified against
`LOW_STOCK_THRESHOLD`. -/
def setMetrics (item : InventoryItem) : InventoryItem :=
  let sd := item.purchased_qty - item.sold_qty
  { item with
    surplus_deficit := sd,
    status :=
      if sd > 0 then
        (if sd < LOW_STOCK_THRESHOLD then StockStatus.low_stock else StockStatus.surplus)
      else if sd < 0 then StockStatus.deficit
      else StockStatus.balanced }

/-- Lines 209-226: updates every item of the map and collects the
`low_stock_items`, `surplus_items` and `deficit_items` name lists in
iteration order.  Returns `(map, low_stock, surplus, deficit)`. -/
def computeMetricsLoop :
    List (String × InventoryItem) →
    List (String × InventoryItem) × List String × List String × List String
  | [] => ([], [], [], [])
  | (name, item) :: rest =>
    let sd := item.purchased_qty - item.sold_qty
    let p := computeMetricsLoop rest
    if sd > 0 then
      if sd < LOW_STOCK_THRESHOLD then
        ((name, { item with surplus_deficit := sd, status := StockStatus.low_stock }) :: p.1,
         name :: p.2.1, p.2.2.1, p.2.2.2)
      else
        ((name, { item with surplus_deficit := sd, status := StockStatus.surplus }) :: p.1,
         p.2.1, name :: p.2.2.1, p.2.2.2)
    else if sd < 0 then
      ((name, { item with surplus_deficit := sd, status := StockStatus.deficit }) :: p.1,
       p.2.1, p.2.2.1, name :: p.2.2.2)
    else
      ((name, { item with surplus_deficit := sd, status := StockStatus.balanced }) :: p.1,
       p.2.1, p.2.2.1, p.2.2.2)

/-! ## Top sellers (inventory_analyzer.py, lines 228-234)

`sorted(item_map.values(), key=lambda x: x.sold_qty, reverse=True)` is a
stable sort: the output is ordered by the linear key (descending
`sold_qty`, ascending original position).  It is modelled by tagging
each item with its position and sorting with `List.insertionSort` on
that linear key, which yields the same (unique) sorted permutation. -/

/-- Order of the stable descending sort on position-tagged items. -/
def topRel (x y : ℕ × InventoryItem) : Prop :=
  y.2.sold_qty < x.2.sold_qty ∨ (x.2.sold_qty = y.2.sold_qty ∧ x.1 ≤ y.1)

instance : DecidableRel topRel := fun x y => by unfold topRel; exact inferInstance

instance : IsTotal (ℕ × InventoryItem) topRel where
  total x y := by
    unfold topRel
    rcases lt_trichotomy x.2.sold_qty y.2.sold_qty with h | h | h
    · exact Or.inr (Or.inl h)
    · rcases Nat.le_total x.1 y.1 with h2 | h2
      · exact Or.inl (Or.inr ⟨h, h2⟩)
      · exact Or.inr (Or.inr ⟨h.symm, h2⟩)
    · exact Or.inl (Or.inl h)

instance : IsTrans (ℕ × InventoryItem) topRel where
  trans x y z := by
    unfold topRel
    rintro (h1 | ⟨e1, i1⟩) (h2 | ⟨e2, i2⟩)
    · exact Or.inl (h2.trans h1)
    · exact Or.inl (e2 ▸ h1)
    · exact Or.inl (lt_of_lt_of_eq h2 e1.symm)
    · exact Or.inr ⟨e1.trans e2, i1.trans i2⟩

/-- Lines 229-233: the stable descending sort of the item list by
`sold_qty`. -/
def sortBySoldDesc (items : List InventoryItem) : List InventoryItem :=
  (items.enum.insertionSort topRel).map Prod.snd

/-! ## Insights (inventory_analyzer.py, lines 353-396) -/

/-- `_generate_insights` (lines 353-396): the fixed-template insight
strings, each conditional on its list being non-empty, plus the
unconditional summary line. -/
def generate_insights (analysis : InventoryAnalysis) : List String :=
  (if analysis.deficit_items.length > 0 then
    ["[CRITICAL] Stock Deficit: " ++ toString analysis.deficit_items.length ++
      " items have been sold more than purchased. Immediate action needed! See Deficit Items below."]
   else []) ++
  (if analysis.low_stock_items.length > 0 then
    ["[ALERT] Low Stock: " ++ toString analysis.low_stock_items.length ++
      " items have less than 10 units remaining. Consider reordering soon!"]
   else []) ++
  (if analysis.surplus_items.length > 0 then
    ["[GOOD] Surplus Stock: " ++ toString analysis.surplus_items.length ++
      " items have healthy excess inventory. Good stock levels maintained."]
   else []) ++
  (if analysis.top_selling_items.length > 0 then
    ["[TOP] Bestsellers: " ++ toString analysis.top_selling_items.length ++
      " top performing items identified. See Top Selling Items below."]
   else []) ++
  ["[SUMMARY] Analyzed " ++ toString analysis.purchase_bill_count ++ " purchase bills + " ++
    toString analysis.sales_bill_count ++ " sales bills = " ++ toString analysis.items.length ++
    " unique items tracked."]

/-! ## analyze (inventory_analyzer.py, lines 140-240) -/

/-- Everything `analyze` computes except the date-mismatch warning
(which line 171 assigns to its own field, independently of the rest). -/
def analyzeAggregate (purchase_data sales_data : List Bill) : InventoryAnalysis :=
  let purchase_dates := extract_dates purchase_data
  let sales_dates := extract_dates sales_data
  let met := computeMetricsLoop (itemMap purchase_data sales_data)
  let itemsList := met.1.map Prod.snd
  let r0 : InventoryAnalysis :=
    { items := itemsList,
      surplus_items := met.2.2.1,
      deficit_items := met.2.2.2,
      low_stock_items := met.2.1,
      top_selling_items := ((sortBySoldDesc itemsList).take 5).map InventoryItem.item_name,
      insights := [],
      purchase_bill_count := purchase_data.length,
      sales_bill_count := sales_data.length,
      total_purchase_value := (purchaseAcc purchase_data).2,
      total_sales_value := (salesAcc purchase_data sales_data).2,
      purchase_date_range :=
        if purchase_dates.isEmpty then (none, none)
        else (some (pyMinStr purchase_dates), some (pyMaxStr purchase_dates)),
      sales_date_range :=
        if sales_dates.isEmpty then (none, none)
        else (some (pyMinStr sales_dates), some (pyMaxStr sales_dates)),
      date_mismatch_warning := "" }
  { r0 with insights := generate_insights r0 }

/-- `InventoryAnalyzer.analyze` (lines 140-240). -/
def analyze (purchase_data sales_data : List Bill) : InventoryAnalysis :=
  let r := analyzeAggregate purchase_data sales_data
  { r with date_mismatch_warning :=
      validate_date_ranges r.purchase_date_range r.sales_date_range }

/-! ## Specification-side definitions (not translations of the source)

These are used to state claims, following the words of the spec. -/

/-- Modelled from the spec: the chronological key of a normalized
`DD/MM/YYYY` date (year, month, day), used to state what a
chronological comparison of normalized dates would be. -/
def chronKey (s : String) : Option (ℕ × ℕ × ℕ) := parse_dmY '/' s.data

/-- Modelled from the spec: `a` is chronologically strictly earlier
than `b`, both being normalized `DD/MM/YYYY` dates. -/
def chronEarlier (a b : String) : Bool :=
  match chronKey a, chronKey b with
  | some (y1, m1, d1), some (y2, m2, d2) =>
    decide (y1 < y2 ∨ (y1 = y2 ∧ (m1 < m2 ∨ (m1 = m2 ∧ d1 < d2))))
  | _, _ => false

/-- The sold quantity recorded for `name` in an item list (0 when the
name does not occur). -/
def soldOfItems (items : List InventoryItem) (name : String) : ℚ :=
  match items.find? (fun it => it.item_name == name) with
  | some it => it.sold_qty
  | none => 0

/-- The sold quantity recorded for item name `name` in an analysis
result (0 when the name does not occur). -/
def soldOf (r : InventoryAnalysis) (name : String) : ℚ := soldOfItems r.items name

/-- Shorthand for the surplus of a pre-metrics item. -/
def sdOf (v : InventoryItem) : ℚ := v.purchased_qty - v.sold_qty

/-- First entry of the item map under key `k`. -/
def lookupItem (m : List (String × InventoryItem)) (k : String) : Option InventoryItem :=
  (m.find? (fun q => q.1 == k)).map Prod.snd

/-- Purchased quantity recorded under key `k` (0 when absent). -/
def lookupPurchasedQty (m : List (String × InventoryItem)) (k : String) : ℚ :=
  ((lookupItem m k).map InventoryItem.purchased_qty).getD 0

/-- Sold quantity recorded under key `k` (0 when absent). -/
def lookupSoldQty (m : List (String × InventoryItem)) (k : String) : ℚ :=
  ((lookupItem m k).map InventoryItem.sold_qty).getD 0

/-! ## Helper lemmas: folds and the item map -/

/-- Key list of the item map. -/
def mapKeys (m : List (String × InventoryItem)) : List String := m.map Prod.fst

/-- Invariant of the aggregation map: keys are distinct (it models a
dict) and every entry records its own key as its `item_name`. -/
def MapInv (m : List (String × InventoryItem)) : Prop :=
  (mapKeys m).Nodup ∧ ∀ q ∈ m, q.2.item_name = q.1

theorem foldl_preserve {α β : Type} (P : α → Prop) (f : α → β → α)
    (hstep : ∀ a b, P a → P (f a b)) :
    ∀ (l : List β) (a : α), P a → P (l.foldl f a) := by
  intro l
  induction l with
  | nil => intro a h; exact h
  | cons b t ih => intro a h; exact ih (f a b) (hstep a b h)

theorem updateItem_keys (m : List (String × InventoryItem)) (name : String)
    (f : InventoryItem → InventoryItem) :
    mapKeys (updateItem m name f) =
      if name ∈ mapKeys m then mapKeys m else mapKeys m ++ [name] := by
  induction m with
  | nil => simp [updateItem, mapKeys]
  | cons q t ih =>
    obtain ⟨k, v⟩ := q
    by_cases hk : k = name
    · subst hk
      simp [updateItem, mapKeys]
    · simp only [updateItem, if_neg hk, mapKeys, List.map_cons, List.mem_cons]
      rw [mapKeys] at ih
      rcases Decidable.em (name ∈ t.map Prod.fst) with hmem | hmem
      · simp [hmem, Ne.symm hk, ih, mapKeys]
      · simp [hmem, Ne.symm hk, ih, mapKeys]

theorem updateItem_nodup {m : List (String × InventoryItem)} (name : String)
    (f : InventoryItem → InventoryItem) (h : (mapKeys m).Nodup) :
    (mapKeys (updateItem m name f)).Nodup := by
  rw [updateItem_keys]
  by_cases hmem : name ∈ mapKeys m
  · simpa [hmem] using h
  · simp only [if_neg hmem]
    exact h.append (List.nodup_singleton name)
      (fun a ha hb => hmem (by rwa [List.mem_singleton.mp hb] at ha))

theorem updateItem_names {m : List (String × InventoryItem)} {name : String}
    {f : InventoryItem → InventoryItem} (hm : ∀ q ∈ m, q.2.item_name = q.1)
    (hf : ∀ v, (f v).item_name = v.item_name) :
    ∀ q ∈ updateItem m name f, q.2.item_name = q.1 := by
  induction m with
  | nil =>
    intro q hq
    simp only [updateItem, List.mem_singleton] at hq
    subst hq
    simpa using hf { item_name := name }
  | cons p t ih =>
    obtain ⟨k, v⟩ := p
    intro q hq
    by_cases hk : k = name
    · subst hk
      simp [updateItem] at hq
      rcases hq with hq | hq
      · subst hq
        simpa using (hf v).trans (hm (k, v) (List.mem_cons_self _ _))
      · exact hm q (List.mem_cons_of_mem _ hq)
    · simp only [updateItem, if_neg hk, List.mem_cons] at hq
      rcases hq with hq | hq
      · subst hq
        exact hm (k, v) (List.mem_cons_self _ _)
      · exact ih (fun r hr => hm r (List.mem_cons_of_mem _ hr)) q hq

theorem stepPurchase_inv (acc : List (String × InventoryItem) × ℚ) (item : LineItem)
    (h : MapInv acc.1) : MapInv (stepPurchase acc item).1 := by
  obtain ⟨h1, h2⟩ := h
  exact ⟨updateItem_nodup _ _ h1,
    updateItem_names h2 (fun v => by by_cases hA : item.amount > 0 <;> simp [hA])⟩

theorem stepSale_inv (acc : List (String × InventoryItem) × ℚ) (item : LineItem)
    (h : MapInv acc.1) : MapInv (stepSale acc item).1 := by
  obtain ⟨h1, h2⟩ := h
  exact ⟨updateItem_nodup _ _ h1,
    updateItem_names h2 (fun v => by by_cases hA : item.amount > 0 <;> simp [hA])⟩

theorem itemMap_inv (purchase_data sales_data : List Bill) :
    MapInv (itemMap purchase_data sales_data) := by
  have hP : ∀ (acc : List (String × InventoryItem) × ℚ) (b : Bill),
      MapInv acc.1 → MapInv (billPurchaseStep acc b).1 := fun acc b h =>
    foldl_preserve (fun a => MapInv a.1) stepPurchase stepPurchase_inv b.line_items acc h
  have hS : ∀ (acc : List (String × InventoryItem) × ℚ) (b : Bill),
      MapInv acc.1 → MapInv (billSaleStep acc b).1 := fun acc b h =>
    foldl_preserve (fun a => MapInv a.1) stepSale stepSale_inv b.line_items acc h
  have h0 : MapInv (([], 0) : List (String × InventoryItem) × ℚ).1 :=
    ⟨List.nodup_nil, by simp⟩
  have h1 : MapInv (purchaseAcc purchase_data).1 :=
    foldl_preserve (fun a => MapInv a.1) billPurchaseStep hP purchase_data ([], 0) h0
  exact foldl_preserve (fun a => MapInv a.1) billSaleStep hS sales_data
    ((purchaseAcc purchase_data).1, 0) h1

/-! ## Helper lemmas: the metrics loop -/

theorem cml_out (m : List (String × InventoryItem)) :
    (computeMetricsLoop m).1 = m.map (fun q => (q.1, setMetrics q.2)) := by
  induction m with
  | nil => rfl
  | cons q t ih =>
    obtain ⟨k, v⟩ := q
    by_cases h1 : v.purchased_qty - v.sold_qty > 0
    · have hs : v.sold_qty < v.purchased_qty := sub_pos.mp h1
      by_cases h2 : v.purchased_qty - v.sold_qty < LOW_STOCK_THRESHOLD
      · simp [computeMetricsLoop, setMetrics, h1, h2, hs, ih]
      · simp [computeMetricsLoop, setMetrics, h1, h2, hs, ih]
    · have hns : ¬ v.sold_qty < v.purchased_qty := fun hh => h1 (sub_pos.mpr hh)
      by_cases h3 : v.purchased_qty - v.sold_qty < 0
      · have hps : v.purchased_qty < v.sold_qty := sub_neg.mp h3
        simp [computeMetricsLoop, setMetrics, h1, h3, hns, hps, ih]
      · have hnp : ¬ v.purchased_qty < v.sold_qty := fun hh => h3 (sub_neg.mpr hh)
        simp [computeMetricsLoop, setMetrics, h1, h3, hns, hnp, ih]

theorem cml_low (m : List (String × InventoryItem)) :
    (computeMetricsLoop m).2.1 =
      (m.filter (fun q => decide (0 < sdOf q.2 ∧ sdOf q.2 < LOW_STOCK_THRESHOLD))).map
        Prod.fst := by
  induction m with
  | nil => rfl
  | cons q t ih =>
    obtain ⟨k, v⟩ := q
    by_cases h1 : v.purchased_qty - v.sold_qty > 0
    · have hs : v.sold_qty < v.purchased_qty := sub_pos.mp h1
      by_cases h2 : v.purchased_qty - v.sold_qty < LOW_STOCK_THRESHOLD
      · simp [computeMetricsLoop, h1, h2, hs, ih, sdOf, List.filter_cons]
      · simp [computeMetricsLoop, h1, h2, hs, ih, sdOf, List.filter_cons]
    · have hns : ¬ v.sold_qty < v.purchased_qty := fun hh => h1 (sub_pos.mpr hh)
      by_cases h3 : v.purchased_qty - v.sold_qty < 0
      · simp [computeMetricsLoop, h1, h3, hns, ih, sdOf, List.filter_cons]
      · simp [computeMetricsLoop, h1, h3, hns, ih, sdOf, List.filter_cons]

theorem cml_surp (m : List (String × InventoryItem)) :
    (computeMetricsLoop m).2.2.1 =
      (m.filter (fun q => decide (0 < sdOf q.2 ∧ LOW_STOCK_THRESHOLD ≤ sdOf q.2))).map
        Prod.fst := by
  induction m with
  | nil => rfl
  | cons q t ih =>
    obtain ⟨k, v⟩ := q
    by_cases h1 : v.purchased_qty - v.sold_qty > 0
    · have hs : v.sold_qty < v.purchased_qty := sub_pos.mp h1
      by_cases h2 : v.purchased_qty - v.sold_qty < LOW_STOCK_THRESHOLD
      · simp [computeMetricsLoop, h1, h2, hs, ih, sdOf, List.filter_cons, not_le.mpr h2]
      · simp [computeMetricsLoop, h1, h2, hs, ih, sdOf, List.filter_cons, not_lt.mp h2]
    · have hns : ¬ v.sold_qty < v.purchased_qty := fun hh => h1 (sub_pos.mpr hh)
      by_cases h3 : v.purchased_qty - v.sold_qty < 0
      · simp [computeMetricsLoop, h1, h3, hns, ih, sdOf, List.filter_cons]
      · simp [computeMetricsLoop, h1, h3, hns, ih, sdOf, List.filter_cons]

theorem cml_def (m : List (String × InventoryItem)) :
    (computeMetricsLoop m).2.2.2 =
      (m.filter (fun q => decide (sdOf q.2 < 0))).map Prod.fst := by
  induction m with
  | nil => rfl
  | cons q t ih =>
    obtain ⟨k, v⟩ := q
    by_cases h1 : v.purchased_qty - v.sold_qty > 0
    · have hnp : ¬ v.purchased_qty < v.sold_qty := asymm (sub_pos.mp h1)
      by_cases h2 : v.purchased_qty - v.sold_qty < LOW_STOCK_THRESHOLD
      · simp [computeMetricsLoop, h1, h2, ih, sdOf, List.filter_cons, hnp]
      · simp [computeMetricsLoop, h1, h2, ih, sdOf, List.filter_cons, hnp]
    · by_cases h3 : v.purchased_qty - v.sold_qty < 0
      · have hps : v.purchased_qty < v.sold_qty := sub_neg.mp h3
        simp [computeMetricsLoop, h1, h3, hps, ih, sdOf, List.filter_cons]
      · have hnp : ¬ v.purchased_qty < v.sold_qty := fun hh => h3 (sub_neg.mpr hh)
        simp [computeMetricsLoop, h1, h3, hnp, ih, sdOf, List.filter_cons]

/-! ## Projection lemmas for analyze -/

theorem analyze_items (purchase_data sales_data : List Bill) :
    (analyze purchase_data sales_data).items =
      (computeMetricsLoop (itemMap purchase_data sales_data)).1.map Prod.snd := rfl

theorem analyze_low (purchase_data sales_data : List Bill) :
    (analyze purchase_data sales_data).low_stock_items =
      (computeMetricsLoop (itemMap purchase_data sales_data)).2.1 := rfl

theorem analyze_surp (purchase_data sales_data : List Bill) :
    (analyze purchase_data sales_data).surplus_items =
      (computeMetricsLoop (itemMap purchase_data sales_data)).2.2.1 := rfl

theorem analyze_def (purchase_data sales_data : List Bill) :
    (analyze purchase_data sales_data).deficit_items =
      (computeMetricsLoop (itemMap purchase_data sales_data)).2.2.2 := rfl

theorem analyze_tops (purchase_data sales_data : List Bill) :
    (analyze purchase_data sales_data).top_selling_items =
      ((sortBySoldDesc ((computeMetricsLoop (itemMap purchase_data sales_data)).1.map
        Prod.snd)).take 5).map InventoryItem.item_name := rfl

theorem analyze_purchase_range (purchase_data sales_data : List Bill) :
    (analyze purchase_data sales_data).purchase_date_range =
      (if (extract_dates purchase_data).isEmpty then (none, none)
       else (some (pyMinStr (extract_dates purchase_data)),
             some (pyMaxStr (extract_dates purchase_data)))) := rfl

theorem analyze_sales_range (purchase_data sales_data : List Bill) :
    (analyze purchase_data sales_data).sales_date_range =
      (if (extract_dates sales_data).isEmpty then (none, none)
       else (some (pyMinStr (extract_dates sales_data)),
             some (pyMaxStr (extract_dates sales_data)))) := rfl

theorem analyze_warning (purchase_data sales_data : List Bill) :
    (analyze purchase_data sales_data).date_mismatch_warning =
      validate_date_ranges (analyze purchase_data sales_data).purchase_date_range
        (analyze purchase_data sales_data).sales_date_range := rfl

theorem keys_nodup_val_eq {m : List (String × InventoryItem)} (h : (mapKeys m).Nodup)
    {k : String} {v v' : InventoryItem} (h1 : (k, v) ∈ m) (h2 : (k, v') ∈ m) : v = v' := by
  induction m with
  | nil => cases h1
  | cons p t ih =>
    have hnd : (mapKeys t).Nodup := (List.nodup_cons.mp h).2
    have hhead : p.1 ∉ mapKeys t := (List.nodup_cons.mp h).1
    rcases List.mem_cons.mp h1 with e1 | m1
    · rcases List.mem_cons.mp h2 with e2 | m2
      · rw [← e1] at e2
        exact congrArg Prod.snd e2.symm
      · exfalso
        apply hhead
        rw [← e1]
        exact List.mem_map.mpr ⟨(k, v'), m2, rfl⟩
    · rcases List.mem_cons.mp h2 with e2 | m2
      · exfalso
        apply hhead
        rw [← e2]
        exact List.mem_map.mpr ⟨(k, v), m1, rfl⟩
      · exact ih hnd m1 m2

theorem mem_filter_keys_iff {m : List (String × InventoryItem)} (hnd : (mapKeys m).Nodup)
    {k : String} {v : InventoryItem} (hv : (k, v) ∈ m) (p : String × InventoryItem → Bool) :
    k ∈ (m.filter p).map Prod.fst ↔ p (k, v) = true := by
  constructor
  · intro hk
    rcases List.mem_map.mp hk with ⟨q, hq, hqk⟩
    rcases List.mem_filter.mp hq with ⟨hqm, hqp⟩
    obtain ⟨k0, v0⟩ := q
    cases hqk
    have : v0 = v := keys_nodup_val_eq hnd hqm hv
    rwa [this] at hqp
  · intro hp
    exact List.mem_map.mpr ⟨(k, v), List.mem_filter.mpr ⟨hv, hp⟩, rfl⟩

/-! ## Claim theorems -/

/-- C1: for every `InventoryItem` in the result of `analyze`, its
`surplus_deficit` field equals exactly `purchased_qty - sold_qty` (the
metrics loop assigns exactly this subtraction of the two accumulated
sums), for every pair of purchase and sales bill lists. -/
theorem c1_surplus_deficit_exact (purchase_data sales_data : List Bill) :
    ∀ it ∈ (analyze purchase_data sales_data).items,
      it.surplus_deficit = it.purchased_qty - it.sold_qty := by
  intro it hit
  rw [analyze_items, cml_out] at hit
  rcases List.mem_map.mp hit with ⟨q, hq, rfl⟩
  rcases List.mem_map.mp hq with ⟨q0, _, rfl⟩
  simp [setMetrics]

set_option maxRecDepth 8000 in
/-- Witness for C1: a concrete run of `analyze`, eight purchased and
three sold, surplus five. -/
theorem c1_witness :
    ({ item_name := "pen", purchased_qty := 8, sold_qty := 3, surplus_deficit := 5,
       status := StockStatus.low_stock, purchased_value := 16, sold_value := 6 } : InventoryItem) ∈
      (analyze [{ line_items := [{ item_name := "Pen", quantity := 8, amount := 16 }], date := "" }]
        [{ line_items := [{ item_name := "pen ", quantity := 3, amount := 6 }], date := "" }]).items ∧
    ({ item_name := "pen", purchased_qty := 8, sold_qty := 3, surplus_deficit := 5,
       status := StockStatus.low_stock, purchased_value := 16, sold_value := 6 } :
        InventoryItem).surplus_deficit =
      ({ item_name := "pen", purchased_qty := 8, sold_qty := 3, surplus_deficit := 5,
         status := StockStatus.low_stock, purchased_value := 16, sold_value := 6 } :
          InventoryItem).purchased_qty -
        ({ item_name := "pen", purchased_qty := 8, sold_qty := 3, surplus_deficit := 5,
           status := StockStatus.low_stock, purchased_value := 16, sold_value := 6 } :
            InventoryItem).sold_qty :=
  ⟨by with_unfolding_all decide,
   c1_surplus_deficit_exact
     [{ line_items := [{ item_name := "Pen", quantity := 8, amount := 16 }], date := "" }]
     [{ line_items := [{ item_name := "pen ", quantity := 3, amount := 6 }], date := "" }]
     _ (by with_unfolding_all decide)⟩

/-- C2: `analyze` classifies every aggregated item by the priority rule
(`surplus_deficit` strictly between 0 and 10 gives LOW_STOCK and puts
the name in `low_stock_items`; at least 10 gives SURPLUS and
`surplus_items`; negative gives DEFICIT and `deficit_items`; zero gives
BALANCED and no list), and each item name lands in exactly one of the
three lists or, when balanced, in none. -/
theorem c2_status_partition (purchase_data sales_data : List Bill) :
    ∀ it ∈ (analyze purchase_data sales_data).items,
      (0 < it.surplus_deficit → it.surplus_deficit < 10 →
        it.status = StockStatus.low_stock ∧
        it.item_name ∈ (analyze purchase_data sales_data).low_stock_items ∧
        it.item_name ∉ (analyze purchase_data sales_data).surplus_items ∧
        it.item_name ∉ (analyze purchase_data sales_data).deficit_items) ∧
      (0 < it.surplus_deficit → ¬ it.surplus_deficit < 10 →
        it.status = StockStatus.surplus ∧
        it.item_name ∈ (analyze purchase_data sales_data).surplus_items ∧
        it.item_name ∉ (analyze purchase_data sales_data).low_stock_items ∧
        it.item_name ∉ (analyze purchase_data sales_data).deficit_items) ∧
      (it.surplus_deficit < 0 →
        it.status = StockStatus.deficit ∧
        it.item_name ∈ (analyze purchase_data sales_data).deficit_items ∧
        it.item_name ∉ (analyze purchase_data sales_data).low_stock_items ∧
        it.item_name ∉ (analyze purchase_data sales_data).surplus_items) ∧
      (it.surplus_deficit = 0 →
        it.status = StockStatus.balanced ∧
        it.item_name ∉ (analyze purchase_data sales_data).low_stock_items ∧
        it.item_name ∉ (analyze purchase_data sales_data).surplus_items ∧
        it.item_name ∉ (analyze purchase_data sales_data).deficit_items) := by
  intro it hit
  obtain ⟨hnd, hnames⟩ := itemMap_inv purchase_data sales_data
  rw [analyze_items, cml_out] at hit
  rcases List.mem_map.mp hit with ⟨q, hq, rfl⟩
  rcases List.mem_map.mp hq with ⟨q0, hq0, rfl⟩
  have hkey : (q0.1, q0.2) ∈ itemMap purchase_data sales_data := by
    rwa [Prod.mk.eta]
  have hname : (setMetrics q0.2).item_name = q0.1 := by
    rw [show (setMetrics q0.2).item_name = q0.2.item_name from rfl]
    exact hnames q0 hq0
  have hsd : (setMetrics q0.2).surplus_deficit = sdOf q0.2 := rfl
  have hstat : (setMetrics q0.2).status =
      (if 0 < sdOf q0.2 then
        (if sdOf q0.2 < LOW_STOCK_THRESHOLD then StockStatus.low_stock else StockStatus.surplus)
      else if sdOf q0.2 < 0 then StockStatus.deficit else StockStatus.balanced) := rfl
  have hlow := mem_filter_keys_iff hnd hkey
    (fun q => decide (0 < sdOf q.2 ∧ sdOf q.2 < LOW_STOCK_THRESHOLD))
  have hsurp := mem_filter_keys_iff hnd hkey
    (fun q => decide (0 < sdOf q.2 ∧ LOW_STOCK_THRESHOLD ≤ sdOf q.2))
  have hdef := mem_filter_keys_iff hnd hkey (fun q => decide (sdOf q.2 < 0))
  refine ⟨fun h1 h2 => ?_, fun h1 h2 => ?_, fun h1 => ?_, fun h1 => ?_⟩
  · rw [hsd] at h1 h2
    have h2T : sdOf q0.2 < LOW_STOCK_THRESHOLD := h2
    refine ⟨by rw [hstat, if_pos h1, if_pos h2T], ?_, ?_, ?_⟩
    · rw [hname, analyze_low, cml_low]
      exact hlow.mpr (decide_eq_true ⟨h1, h2T⟩)
    · rw [hname, analyze_surp, cml_surp]
      intro hmem
      rcases of_decide_eq_true (hsurp.mp hmem) with ⟨_, hge⟩
      exact absurd h2T (not_lt.mpr hge)
    · rw [hname, analyze_def, cml_def]
      intro hmem
      exact absurd h1 (not_lt.mpr (le_of_lt (of_decide_eq_true (hdef.mp hmem))))
  · rw [hsd] at h1 h2
    have h2T : ¬ sdOf q0.2 < LOW_STOCK_THRESHOLD := h2
    refine ⟨by rw [hstat, if_pos h1, if_neg h2T], ?_, ?_, ?_⟩
    · rw [hname, analyze_surp, cml_surp]
      exact hsurp.mpr (decide_eq_true ⟨h1, not_lt.mp h2T⟩)
    · rw [hname, analyze_low, cml_low]
      intro hmem
      rcases of_decide_eq_true (hlow.mp hmem) with ⟨_, hlt⟩
      exact h2T hlt
    · rw [hname, analyze_def, cml_def]
      intro hmem
      exact absurd h1 (not_lt.mpr (le_of_lt (of_decide_eq_true (hdef.mp hmem))))
  · rw [hsd] at h1
    have hng : ¬ 0 < sdOf q0.2 := not_lt.mpr (le_of_lt h1)
    refine ⟨by rw [hstat, if_neg hng, if_pos h1], ?_, ?_, ?_⟩
    · rw [hname, analyze_def, cml_def]
      exact hdef.mpr (decide_eq_true h1)
    · rw [hname, analyze_low, cml_low]
      intro hmem
      rcases of_decide_eq_true (hlow.mp hmem) with ⟨hpos, _⟩
      exact hng hpos
    · rw [hname, analyze_surp, cml_surp]
      intro hmem
      rcases of_decide_eq_true (hsurp.mp hmem) with ⟨hpos, _⟩
      exact hng hpos
  · rw [hsd] at h1
    have hng : ¬ 0 < sdOf q0.2 := by rw [h1]; exact lt_irrefl 0
    have hnn : ¬ sdOf q0.2 < 0 := by rw [h1]; exact lt_irrefl 0
    refine ⟨by rw [hstat, if_neg hng, if_neg hnn], ?_, ?_, ?_⟩
    · rw [hname, analyze_low, cml_low]
      intro hmem
      rcases of_decide_eq_true (hlow.mp hmem) with ⟨hpos, _⟩
      exact hng hpos
    · rw [hname, analyze_surp, cml_surp]
      intro hmem
      rcases of_decide_eq_true (hsurp.mp hmem) with ⟨hpos, _⟩
      exact hng hpos
    · rw [hname, analyze_def, cml_def]
      intro hmem
      exact hnn (of_decide_eq_true (hdef.mp hmem))

set_option maxRecDepth 8000 in
/-- Witness for C2: a concrete low-stock item (surplus 5) is LOW_STOCK,
listed exactly in `low_stock_items`. -/
theorem c2_witness :
    (({ item_name := "pen", purchased_qty := 5, sold_qty := 0, surplus_deficit := 5,
        status := StockStatus.low_stock, purchased_value := 0, sold_value := 0 } : InventoryItem) ∈
      (analyze [{ line_items := [{ item_name := "Pen", quantity := 5 }], date := "" }] []).items) ∧
    (({ item_name := "pen", purchased_qty := 5, sold_qty := 0, surplus_deficit := 5,
        status := StockStatus.low_stock, purchased_value := 0, sold_value := 0 } :
         InventoryItem).status = StockStatus.low_stock ∧
     ({ item_name := "pen", purchased_qty := 5, sold_qty := 0, surplus_deficit := 5,
        status := StockStatus.low_stock, purchased_value := 0, sold_value := 0 } :
         InventoryItem).item_name ∈
       (analyze [{ line_items := [{ item_name := "Pen", quantity := 5 }], date := "" }]
         []).low_stock_items ∧
     ({ item_name := "pen", purchased_qty := 5, sold_qty := 0, surplus_deficit := 5,
        status := StockStatus.low_stock, purchased_value := 0, sold_value := 0 } :
         InventoryItem).item_name ∉
       (analyze [{ line_items := [{ item_name := "Pen", quantity := 5 }], date := "" }]
         []).surplus_items ∧
     ({ item_name := "pen", purchased_qty := 5, sold_qty := 0, surplus_deficit := 5,
        status := StockStatus.low_stock, purchased_value := 0, sold_value := 0 } :
         InventoryItem).item_name ∉
       (analyze [{ line_items := [{ item_name := "Pen", quantity := 5 }], date := "" }]
         []).deficit_items) :=
  ⟨by with_unfolding_all decide,
   (c2_status_partition [{ line_items := [{ item_name := "Pen", quantity := 5 }], date := "" }] []
       _ (by with_unfolding_all decide))
     |>.1 (by with_unfolding_all decide) (by with_unfolding_all decide)⟩

/-- C3: for every raw line item whose (backfilled) amount and rate are
positive and whose declared discount is positive, the discount is zeroed
if and only if `|quantity * rate - amount| < 1`, the amount being the
value after the step-1 backfill; otherwise the declared discount is kept
unchanged. -/
theorem c3_phantom_discount (item : RawLineItem)
    (hA : 0 < backfilledAmount item) (hr : 0 < rawRate item) (hd : 0 < rawDiscount item) :
    (correctedDiscount item = 0 ↔
      |rawQty item * rawRate item - backfilledAmount item| < 1) ∧
    (¬ |rawQty item * rawRate item - backfilledAmount item| < 1 →
      correctedDiscount item = rawDiscount item) := by
  constructor
  · constructor
    · intro h0
      by_contra hne
      rw [show correctedDiscount item =
            (if backfilledAmount item > 0 ∧ rawRate item > 0 ∧ rawDiscount item > 0 ∧
                |rawQty item * rawRate item - backfilledAmount item| < 1 then 0
             else rawDiscount item) from rfl, if_neg (fun hc => hne hc.2.2.2)] at h0
      exact absurd h0 (ne_of_gt hd)
    · intro habs
      rw [show correctedDiscount item =
            (if backfilledAmount item > 0 ∧ rawRate item > 0 ∧ rawDiscount item > 0 ∧
                |rawQty item * rawRate item - backfilledAmount item| < 1 then 0
             else rawDiscount item) from rfl, if_pos ⟨hA, hr, hd, habs⟩]
  · intro hne
    rw [show correctedDiscount item =
          (if backfilledAmount item > 0 ∧ rawRate item > 0 ∧ rawDiscount item > 0 ∧
              |rawQty item * rawRate item - backfilledAmount item| < 1 then 0
           else rawDiscount item) from rfl, if_neg (fun hc => hne hc.2.2.2)]

set_option maxRecDepth 4000 in
/-- Witness for C3, scenario A of the spec: quantity 50, rate 10,
printed amount 500, declared discount 18 percent; the phantom correction
fires and the discount becomes 0. -/
theorem c3_witness :
    0 < backfilledAmount { item_name := some "Widget", quantity := some 50, rate := some 10,
                           discount_percent := some 18, amount := some 500 } ∧
    0 < rawRate { item_name := some "Widget", quantity := some 50, rate := some 10,
                  discount_percent := some 18, amount := some 500 } ∧
    0 < rawDiscount { item_name := some "Widget", quantity := some 50, rate := some 10,
                      discount_percent := some 18, amount := some 500 } ∧
    correctedDiscount { item_name := some "Widget", quantity := some 50, rate := some 10,
                        discount_percent := some 18, amount := some 500 } = 0 :=
  ⟨by with_unfolding_all decide, by with_unfolding_all decide, by with_unfolding_all decide,
   ((c3_phantom_discount
       { item_name := some "Widget", quantity := some 50, rate := some 10,
         discount_percent := some 18, amount := some 500 }
       (by with_unfolding_all decide) (by with_unfolding_all decide)
       (by with_unfolding_all decide)).1).mpr (by with_unfolding_all decide)⟩

/-- C8: the classifier recomputes the amount only when the extracted
amount is 0 and the rate is positive (with or without a declared
discount); a nonzero extracted amount is always kept exactly. -/
theorem c8_amount_backfill (item : RawLineItem) :
    (rawAmount item ≠ 0 → backfilledAmount item = rawAmount item) ∧
    (rawAmount item = 0 → 0 < rawRate item → 0 < rawDiscount item →
      backfilledAmount item = rawQty item * rawRate item * (1 - rawDiscount item / 100)) ∧
    (rawAmount item = 0 → 0 < rawRate item → ¬ 0 < rawDiscount item →
      backfilledAmount item = rawQty item * rawRate item) ∧
    (rawAmount item = 0 → ¬ 0 < rawRate item → backfilledAmount item = rawAmount item) := by
  refine ⟨fun h => ?_, fun h0 hr hd => ?_, fun h0 hr hd => ?_, fun h0 hr => ?_⟩
  · rw [backfilledAmount, if_neg (fun hc => h hc.1)]
  · rw [backfilledAmount, if_pos ⟨h0, hr⟩, if_pos hd]
  · rw [backfilledAmount, if_pos ⟨h0, hr⟩, if_neg hd]
  · rw [backfilledAmount, if_neg (fun hc => hr hc.2)]

/-- Witness for C8: a nonzero extracted amount (500) is kept although
quantity times rate would give 499. -/
theorem c8_witness :
    rawAmount { item_name := some "Widget", quantity := some 1, rate := some 499,
                discount_percent := none, amount := some 500 } ≠ 0 ∧
    backfilledAmount { item_name := some "Widget", quantity := some 1, rate := some 499,
                       discount_percent := none, amount := some 500 } =
      rawAmount { item_name := some "Widget", quantity := some 1, rate := some 499,
                  discount_percent := none, amount := some 500 } :=
  ⟨by with_unfolding_all decide,
   (c8_amount_backfill
       { item_name := some "Widget", quantity := some 1, rate := some 499,
         discount_percent := none, amount := some 500 }).1 (by with_unfolding_all decide)⟩

set_option maxRecDepth 4000 in
/-- C9 counterexample: a raw line item with a missing name yields a
`LineItem` named `"Unknown"`, which is not the claimed sentinel
`"Unknown Item"`. -/
theorem c9_counterexample :
    processRawItem { item_name := none, quantity := some 2, rate := some 5,
                     discount_percent := none, amount := some 10 } =
      Sum.inl { item_name := "Unknown", quantity := 2, rate := 5, discount_percent := 0,
                amount := 10 } ∧
    ("Unknown" : String) ≠ "Unknown Item" := by
  with_unfolding_all decide

/-- C9 (amended): an absent raw name gets the classifier sentinel
`"Unknown"` (a present name, blank included, is kept as is), while the
analyzer name normalization used as the aggregation key in `analyze`
maps a blank name to the sentinel `"Unknown Item"`. -/
theorem c9_unknown_sentinels (item : RawLineItem) :
    (item.item_name = none → rawName item = "Unknown") ∧
    (∀ s, item.item_name = some s → rawName item = s) ∧
    (∀ li : LineItem, li.item_name = "" → normalize_item_name li.item_name = "Unknown Item") ∧
    (∀ li : LineItem, li.item_name = "" →
      ∀ acc : List (String × InventoryItem) × ℚ,
        mapKeys (stepPurchase acc li).1 =
          if "Unknown Item" ∈ mapKeys acc.1 then mapKeys acc.1
          else mapKeys acc.1 ++ ["Unknown Item"]) := by
  refine ⟨fun h => ?_, fun s h => ?_, fun li h => ?_, fun li h acc => ?_⟩
  · rw [rawName, h]; rfl
  · rw [rawName, h]; rfl
  · rw [h]; rfl
  · have hname : normalize_item_name li.item_name = "Unknown Item" := by rw [h]; rfl
    show mapKeys (updateItem acc.1 (normalize_item_name li.item_name) _) = _
    rw [hname, updateItem_keys]

set_option maxRecDepth 4000 in
/-- Witness for C9 (amended): the sentinels at concrete inputs. -/
theorem c9_witness :
    rawName { item_name := none, quantity := some 2, rate := some 5,
              discount_percent := none, amount := some 10 } = "Unknown" ∧
    normalize_item_name "" = "Unknown Item" :=
  ⟨(c9_unknown_sentinels
      { item_name := none, quantity := some 2, rate := some 5,
        discount_percent := none, amount := some 10 }).1 rfl,
   (c9_unknown_sentinels
      { item_name := none, quantity := some 2, rate := some 5,
        discount_percent := none, amount := some 10 }).2.2.1
     { item_name := "", quantity := 1 } rfl⟩

theorem updateItem_lookup (m : List (String × InventoryItem)) (k : String)
    (f : InventoryItem → InventoryItem) :
    lookupItem (updateItem m k f) k =
      some (f ((lookupItem m k).getD { item_name := k })) := by
  induction m with
  | nil => simp [updateItem, lookupItem]
  | cons p t ih =>
    obtain ⟨k0, v⟩ := p
    by_cases hk : k0 = k
    · subst hk
      simp [updateItem, lookupItem]
    · have hbeq : (k0 == k) = false := beq_eq_false_iff_ne.mpr hk
      simp only [updateItem, if_neg hk, lookupItem, List.find?_cons, hbeq] at ih ⊢
      exact ih

/-- C10 (implicit): a raw line item whose quantity field is absent, null
or zero is recorded with quantity 1, and aggregating such a line adds
exactly 1 to the purchased (or sold) quantity of its normalized item. -/
theorem c10_default_quantity (item : RawLineItem)
    (h : item.quantity = none ∨ item.quantity = some 0) :
    rawQty item = 1 ∧
    (∀ li, processRawItem item = Sum.inl li → li.quantity = 1) ∧
    (∀ li, processRawItem item = Sum.inl li →
      ∀ acc : List (String × InventoryItem) × ℚ,
        lookupPurchasedQty (stepPurchase acc li).1 (normalize_item_name li.item_name) =
          lookupPurchasedQty acc.1 (normalize_item_name li.item_name) + 1) ∧
    (∀ li, processRawItem item = Sum.inl li →
      ∀ acc : List (String × InventoryItem) × ℚ,
        lookupSoldQty (stepSale acc li).1 (normalize_item_name li.item_name) =
          lookupSoldQty acc.1 (normalize_item_name li.item_name) + 1) := by
  have hq : rawQty item = 1 := by
    rcases h with h | h
    · rw [rawQty, h]
    · rw [rawQty, h]; simp
  have hli : ∀ li, processRawItem item = Sum.inl li → li.quantity = 1 := by
    intro li hpi
    rw [processRawItem] at hpi
    by_cases hc : is_charge (rawName item) = true
    · rw [if_pos hc] at hpi; cases hpi
    · rw [if_neg hc] at hpi
      have := (Sum.inl.injEq _ _).mp hpi
      rw [← this]
      exact hq
  refine ⟨hq, hli, fun li hpi acc => ?_, fun li hpi acc => ?_⟩
  · have h1 := hli li hpi
    rw [show (stepPurchase acc li).1 =
          updateItem acc.1 (normalize_item_name li.item_name) (fun it =>
            let it2 := { it with purchased_qty := it.purchased_qty + li.quantity }
            if li.amount > 0 then
              { it2 with purchased_value := it2.purchased_value + li.amount }
            else it2) from rfl]
    rw [lookupPurchasedQty, updateItem_lookup]
    rw [lookupPurchasedQty]
    cases hfind : lookupItem acc.1 (normalize_item_name li.item_name) with
    | none =>
      by_cases hA : li.amount > 0 <;> simp [hfind, hA, h1]
    | some v =>
      by_cases hA : li.amount > 0 <;> simp [hfind, hA, h1]
  · have h1 := hli li hpi
    rw [show (stepSale acc li).1 =
          updateItem acc.1 (normalize_item_name li.item_name) (fun it =>
            let it2 := { it with sold_qty := it.sold_qty + li.quantity }
            if li.amount > 0 then
              { it2 with sold_value := it2.sold_value + li.amount }
            else it2) from rfl]
    rw [lookupSoldQty, updateItem_lookup]
    rw [lookupSoldQty]
    cases hfind : lookupItem acc.1 (normalize_item_name li.item_name) with
    | none =>
      by_cases hA : li.amount > 0 <;> simp [hfind, hA, h1]
    | some v =>
      by_cases hA : li.amount > 0 <;> simp [hfind, hA, h1]

set_option maxRecDepth 4000 in
/-- Witness for C10: a zero extracted quantity becomes 1, and one
purchase line with it adds exactly one unit to an empty map. -/
theorem c10_witness :
    rawQty { item_name := some "Pen", quantity := some 0, rate := some 3,
             discount_percent := none, amount := some 3 } = 1 ∧
    lookupPurchasedQty
        (stepPurchase (([], 0) : List (String × InventoryItem) × ℚ)
          { item_name := "Pen", quantity := 1, rate := 3, discount_percent := 0,
            amount := 3 }).1
        (normalize_item_name "Pen") =
      lookupPurchasedQty ([] : List (String × InventoryItem)) (normalize_item_name "Pen") + 1 :=
  ⟨(c10_default_quantity
      { item_name := some "Pen", quantity := some 0, rate := some 3,
        discount_percent := none, amount := some 3 } (Or.inr rfl)).1,
   (c10_default_quantity
      { item_name := some "Pen", quantity := some 0, rate := some 3,
        discount_percent := none, amount := some 3 } (Or.inr rfl)).2.2.1
     { item_name := "Pen", quantity := 1, rate := 3, discount_percent := 0, amount := 3 }
     (by with_unfolding_all decide) (([], 0) : List (String × InventoryItem) × ℚ)⟩

/-- C6: a raw line item whose name contains a service keyword is emitted
as a `Charge` (amount preserved, quantity and rate dropped to 0) instead
of a `LineItem`; removing such a raw line changes nothing in the
classifier `line_items` output, and hence nothing in any `analyze`
result built from that output — the entry contributes to no
`InventoryItem`. -/
theorem c6_charge_routing (item : RawLineItem) (h : is_charge (rawName item) = true) :
    processRawItem item =
      Sum.inr { charge_name := rawName item, amount := backfilledAmount item,
                quantity := 0, rate := 0 } ∧
    (∀ pre post : List RawLineItem,
      (classifyItems (pre ++ item :: post)).1 = (classifyItems (pre ++ post)).1) ∧
    (∀ (pre post : List RawLineItem) (pdata sdata : List Bill) (d : String),
      analyze (pdata ++ [{ line_items := (classifyItems (pre ++ item :: post)).1, date := d }])
          sdata =
        analyze (pdata ++ [{ line_items := (classifyItems (pre ++ post)).1, date := d }])
          sdata) ∧
    (∀ (pre post : List RawLineItem) (pdata sdata : List Bill) (d : String),
      analyze pdata
          (sdata ++ [{ line_items := (classifyItems (pre ++ item :: post)).1, date := d }]) =
        analyze pdata
          (sdata ++ [{ line_items := (classifyItems (pre ++ post)).1, date := d }])) := by
  have hinr : processRawItem item =
      Sum.inr { charge_name := rawName item, amount := backfilledAmount item,
                quantity := 0, rate := 0 } := by
    rw [processRawItem, if_pos h]
  have hmain : ∀ pre post : List RawLineItem,
      (classifyItems (pre ++ item :: post)).1 = (classifyItems (pre ++ post)).1 := by
    intro pre post
    induction pre with
    | nil => simp [classifyItems, hinr]
    | cons a t ih =>
      simp only [List.cons_append, classifyItems]
      cases hpa : processRawItem a <;> simp [hpa, ih]
  exact ⟨hinr, hmain,
    fun pre post pdata sdata d => by rw [hmain pre post],
    fun pre post pdata sdata d => by rw [hmain pre post]⟩

set_option maxRecDepth 4000 in
/-- Witness for C6, scenario E of the spec: a line named
`"Packing Charges"` with amount 200 is routed to charges and leaves the
classified product list unchanged. -/
theorem c6_witness :
    is_charge (rawName { item_name := some "Packing Charges", quantity := some 1,
                         rate := some 200, discount_percent := none,
                         amount := some 200 }) = true ∧
    (classifyItems [{ item_name := some "Packing Charges", quantity := some 1,
                      rate := some 200, discount_percent := none, amount := some 200 },
                    { item_name := some "Trophy - 646", quantity := some 4,
                      rate := some 50, discount_percent := none, amount := some 200 }]).1 =
      (classifyItems [{ item_name := some "Trophy - 646", quantity := some 4,
                        rate := some 50, discount_percent := none, amount := some 200 }]).1 :=
  ⟨by with_unfolding_all decide,
   (c6_charge_routing
       { item_name := some "Packing Charges", quantity := some 1, rate := some 200,
         discount_percent := none, amount := some 200 }
       (by with_unfolding_all decide)).2.1 []
     [{ item_name := some "Trophy - 646", quantity := some 4, rate := some 50,
        discount_percent := none, amount := some 200 }]⟩

set_option maxRecDepth 8000 in
/-- C4 (divergence witness): `analyze` computes the date range with
Python string `min`/`max` over `DD/MM/YYYY` strings, which is
lexicographic.  For purchase bills dated 02/01/2024 (2 January) and
01/02/2024 (1 February) the computed range start is `"01/02/2024"` and
the computed end is `"02/01/2024"`, although `"02/01/2024"` is the
chronologically earlier date — so the computed (min, max) is not the
chronological minimum and maximum the claim (and the spec) require. -/
theorem c4_lexicographic_not_chronological :
    (analyze [{ line_items := [], date := "02/01/2024" },
              { line_items := [], date := "01/02/2024" }] []).purchase_date_range =
      (some "01/02/2024", some "02/01/2024") ∧
    chronEarlier "02/01/2024" "01/02/2024" = true := by
  with_unfolding_all decide

/-! ## Helper lemmas for the date-mismatch warning -/

theorem pyMinStr_mem (l : List String) (h : l ≠ []) : pyMinStr l ∈ l := by
  match l with
  | [] => exact absurd rfl h
  | x :: xs =>
    rw [pyMinStr]
    clear h
    induction xs generalizing x with
    | nil => simp
    | cons y ys ih =>
      rw [List.foldl_cons]
      by_cases hc : pyStrLt y.data x.data = true
      · simp only [if_pos hc]
        rcases List.mem_cons.mp (ih y) with hm | hm
        · simp [hm]
        · simp [hm]
      · simp only [hc, if_false, Bool.false_eq_true]
        rcases List.mem_cons.mp (ih x) with hm | hm
        · simp [hm]
        · simp [hm]

theorem pyMaxStr_mem (l : List String) (h : l ≠ []) : pyMaxStr l ∈ l := by
  match l with
  | [] => exact absurd rfl h
  | x :: xs =>
    rw [pyMaxStr]
    clear h
    induction xs generalizing x with
    | nil => simp
    | cons y ys ih =>
      rw [List.foldl_cons]
      by_cases hc : pyStrLt x.data y.data = true
      · simp only [if_pos hc]
        rcases List.mem_cons.mp (ih y) with hm | hm
        · simp [hm]
        · simp [hm]
      · simp only [hc, if_false, Bool.false_eq_true]
        rcases List.mem_cons.mp (ih x) with hm | hm
        · simp [hm]
        · simp [hm]

theorem formatDDMMYYYY_ne_empty (y m d : ℕ) : formatDDMMYYYY y m d ≠ "" := by
  intro h
  have := congrArg String.length h
  simp only [formatDDMMYYYY, String.length_append, String.length_empty] at this
  have h1 : ("/" : String).length = 1 := rfl
  omega

theorem normalize_date_ne_empty {s t : String} (h : normalize_date s = some t) : t ≠ "" := by
  rw [normalize_date] at h
  by_cases hs : s = ""
  · rw [if_pos hs] at h; cases h
  · rw [if_neg hs] at h
    cases htf : tryFormats (pyStripChars s.data) with
    | some v =>
      obtain ⟨y, m, d⟩ := v
      rw [htf] at h
      have ht : t = formatDDMMYYYY y m d := by
        simpa using h.symm
      rw [ht]
      exact formatDDMMYYYY_ne_empty y m d
    | none =>
      rw [htf] at h
      by_cases hf : fallbackDateLike (pyStripChars s.data) = true
      · rw [if_pos hf] at h
        have ht : t = (⟨pyStripChars s.data⟩ : String) := by simpa using h.symm
        intro he
        rw [ht] at he
        have hdata : pyStripChars s.data = [] := by
          have := congrArg String.data he
          simpa using this
        rw [fallbackDateLike, hdata] at hf
        simp [takeDigitsAux] at hf
      · rw [if_neg hf] at h
        cases h

theorem extract_dates_ne_empty (bills : List Bill) : ∀ x ∈ extract_dates bills, x ≠ "" := by
  intro x hx
  rw [extract_dates] at hx
  rcases List.mem_filterMap.mp hx with ⟨b, _, hb⟩
  by_cases hc : b.date ≠ "" ∧ (⟨pyStripChars b.date.data⟩ : String) ≠ ""
  · rw [if_pos hc] at hb
    exact normalize_date_ne_empty hb
  · rw [if_neg hc] at hb
    cases hb

theorem mismatch_warning_ne_empty (s1 s2 s3 s4 : String) :
    ("DATE MISMATCH WARNING: Purchase bills are from " ++ s1 ++ " to " ++ s2 ++
      ", but Sales bills are from " ++ s3 ++ " to " ++ s4 ++
      ". For accurate inventory analysis, ensure both bill sets cover the same date range.") ≠
      "" := by
  intro h
  have := congrArg String.length h
  simp only [String.length_append, String.length_empty] at this
  have h1 : ("DATE MISMATCH WARNING: Purchase bills are from " : String).length = 47 := rfl
  omega

/-- C7: the date-mismatch warning of `analyze` is empty when either date
range is absent, and when both are present it is empty exactly when the
ranges coincide and non-empty exactly when they differ in an endpoint;
the warning never blocks the rest of the analysis — every other field
equals the corresponding field of the warning-free aggregation. -/
theorem c7_date_mismatch_warning (purchase_data sales_data : List Bill) :
    ((analyze purchase_data sales_data).purchase_date_range = (none, none) ∨
      (analyze purchase_data sales_data).sales_date_range = (none, none) →
      (analyze purchase_data sales_data).date_mismatch_warning = "") ∧
    (∀ a b c d : String,
      (analyze purchase_data sales_data).purchase_date_range = (some a, some b) →
      (analyze purchase_data sales_data).sales_date_range = (some c, some d) →
      (a = c ∧ b = d → (analyze purchase_data sales_data).date_mismatch_warning = "") ∧
      (¬ (a = c ∧ b = d) →
        (analyze purchase_data sales_data).date_mismatch_warning ≠ "")) ∧
    ((analyze purchase_data sales_data).items =
        (analyzeAggregate purchase_data sales_data).items ∧
      (analyze purchase_data sales_data).surplus_items =
        (analyzeAggregate purchase_data sales_data).surplus_items ∧
      (analyze purchase_data sales_data).deficit_items =
        (analyzeAggregate purchase_data sales_data).deficit_items ∧
      (analyze purchase_data sales_data).low_stock_items =
        (analyzeAggregate purchase_data sales_data).low_stock_items ∧
      (analyze purchase_data sales_data).top_selling_items =
        (analyzeAggregate purchase_data sales_data).top_selling_items ∧
      (analyze purchase_data sales_data).insights =
        (analyzeAggregate purchase_data sales_data).insights ∧
      (analyze purchase_data sales_data).purchase_bill_count =
        (analyzeAggregate purchase_data sales_data).purchase_bill_count ∧
      (analyze purchase_data sales_data).sales_bill_count =
        (analyzeAggregate purchase_data sales_data).sales_bill_count ∧
      (analyze purchase_data sales_data).total_purchase_value =
        (analyzeAggregate purchase_data sales_data).total_purchase_value ∧
      (analyze purchase_data sales_data).total_sales_value =
        (analyzeAggregate purchase_data sales_data).total_sales_value ∧
      (analyze purchase_data sales_data).purchase_date_range =
        (analyzeAggregate purchase_data sales_data).purchase_date_range ∧
      (analyze purchase_data sales_data).sales_date_range =
        (analyzeAggregate purchase_data sales_data).sales_date_range) := by
  refine ⟨?_, ?_, rfl, rfl, rfl, rfl, rfl, rfl, rfl, rfl, rfl, rfl, rfl, rfl⟩
  · intro h
    rcases h with hp | hp <;>
      · rw [analyze_warning, hp]
        simp [validate_date_ranges, optFalsy]
  · intro a b c d hpr hsr
    constructor
    · rintro ⟨hac, hbd⟩
      subst hac
      subst hbd
      rw [analyze_warning, hpr, hsr]
      simp [validate_date_ranges]
    · intro hne
      have hane : a ≠ "" := by
        rw [analyze_purchase_range] at hpr
        by_cases he : (extract_dates purchase_data).isEmpty
        · rw [if_pos he] at hpr
          cases (Prod.mk.injEq _ _ _ _).mp hpr |>.1
        · rw [if_neg he] at hpr
          have ha : a = pyMinStr (extract_dates purchase_data) := by
            have := (Prod.mk.injEq _ _ _ _).mp hpr |>.1
            exact (Option.some.injEq _ _).mp this |>.symm
          have hnil : extract_dates purchase_data ≠ [] := by
            intro hn
            rw [hn] at he
            exact he rfl
          rw [ha]
          exact extract_dates_ne_empty purchase_data _ (pyMinStr_mem _ hnil)
      have hcne : c ≠ "" := by
        rw [analyze_sales_range] at hsr
        by_cases he : (extract_dates sales_data).isEmpty
        · rw [if_pos he] at hsr
          cases (Prod.mk.injEq _ _ _ _).mp hsr |>.1
        · rw [if_neg he] at hsr
          have hc : c = pyMinStr (extract_dates sales_data) := by
            have := (Prod.mk.injEq _ _ _ _).mp hsr |>.1
            exact (Option.some.injEq _ _).mp this |>.symm
          have hnil : extract_dates sales_data ≠ [] := by
            intro hn
            rw [hn] at he
            exact he rfl
          rw [hc]
          exact extract_dates_ne_empty sales_data _ (pyMinStr_mem _ hnil)
      rw [analyze_warning, hpr, hsr]
      have hdiff : (some a, some b).1 ≠ (some c, some d).1 ∨
          (some a, some b).2 ≠ (some c, some d).2 := by
        rcases not_and_or.mp hne with h | h
        · exact Or.inl (by simpa using h)
        · exact Or.inr (by simpa using h)
      rw [validate_date_ranges, if_neg (by simp [optFalsy, hane, hcne]), if_pos hdiff]
      exact mismatch_warning_ne_empty _ _ _ _

set_option maxRecDepth 8000 in
/-- Witness for C7: purchase bills dated 01/01/2024 and sales bills
dated 02/01/2024 give differing present ranges and a non-empty
warning. -/
theorem c7_witness :
    (analyze [{ line_items := [], date := "01/01/2024" }]
        [{ line_items := [], date := "02/01/2024" }]).purchase_date_range =
      (some "01/01/2024", some "01/01/2024") ∧
    (analyze [{ line_items := [], date := "01/01/2024" }]
        [{ line_items := [], date := "02/01/2024" }]).sales_date_range =
      (some "02/01/2024", some "02/01/2024") ∧
    (analyze [{ line_items := [], date := "01/01/2024" }]
        [{ line_items := [], date := "02/01/2024" }]).date_mismatch_warning ≠ "" :=
  ⟨by with_unfolding_all decide, by with_unfolding_all decide,
   ((c7_date_mismatch_warning [{ line_items := [], date := "01/01/2024" }]
         [{ line_items := [], date := "02/01/2024" }]).2.1
       "01/01/2024" "01/01/2024" "02/01/2024" "02/01/2024"
       (by with_unfolding_all decide) (by with_unfolding_all decide)).2
     (by decide)⟩

/-! ## Helper lemmas for the top-seller sort -/

theorem nodup_indexOf_eq {l : List String} (h : l.Nodup) :
    ∀ (i : ℕ) (a : String), l[i]? = some a → l.indexOf a = i := by
  induction l with
  | nil => intro i a ha; simp at ha
  | cons x t ih =>
    intro i a ha
    cases i with
    | zero =>
      simp only [List.getElem?_cons_zero, Option.some.injEq] at ha
      subst ha
      exact List.indexOf_cons_self _ _
    | succ n =>
      simp only [List.getElem?_cons_succ] at ha
      have hax : x ≠ a := by
        intro he
        subst he
        exact (List.nodup_cons.mp h).1 (List.getElem?_mem ha)
      rw [List.indexOf_cons_ne t hax, ih (List.nodup_cons.mp h).2 n a ha]

theorem find_name_self {l : List InventoryItem}
    (h : (l.map InventoryItem.item_name).Nodup) :
    ∀ it ∈ l, l.find? (fun i => i.item_name == it.item_name) = some it := by
  induction l with
  | nil => intro it hit; cases hit
  | cons x t ih =>
    intro it hit
    rcases List.mem_cons.mp hit with rfl | hmem
    · rw [List.find?_cons_of_pos]
      simp
    · have hxname : x.item_name ≠ it.item_name := by
        intro he
        apply (List.nodup_cons.mp h).1
        rw [he]
        exact List.mem_map.mpr ⟨it, hmem, rfl⟩
      rw [List.find?_cons_of_neg _ (by simpa using hxname)]
      exact ih (List.nodup_cons.mp h).2 it hmem

theorem sortBySoldDesc_spec (items : List InventoryItem)
    (hnd : (items.map InventoryItem.item_name).Nodup) :
    (((sortBySoldDesc items).take 5).map InventoryItem.item_name).length =
      min 5 items.length ∧
    (((sortBySoldDesc items).take 5).map InventoryItem.item_name).Pairwise (fun a b =>
      soldOfItems items b < soldOfItems items a ∨
      (soldOfItems items a = soldOfItems items b ∧
        (items.map InventoryItem.item_name).indexOf a <
          (items.map InventoryItem.item_name).indexOf b)) ∧
    ∀ t ∈ ((sortBySoldDesc items).take 5).map InventoryItem.item_name,
      t ∈ items.map InventoryItem.item_name := by
  set S := items.enum.insertionSort topRel with hS
  have hperm : List.Perm S items.enum := List.perm_insertionSort topRel _
  have hsorted : S.Pairwise topRel := List.sorted_insertionSort topRel _
  have helem : ∀ x ∈ S, items[x.1]? = some x.2 := fun x hx =>
    List.mem_enum_iff_getElem?.mp (hperm.subset hx)
  have hidx : ∀ x ∈ S,
      (items.map InventoryItem.item_name).indexOf x.2.item_name = x.1 := by
    intro x hx
    refine nodup_indexOf_eq hnd x.1 _ ?_
    rw [List.getElem?_map, helem x hx]
    rfl
  have hsold : ∀ x ∈ S, soldOfItems items x.2.item_name = x.2.sold_qty := by
    intro x hx
    have hmem : x.2 ∈ items := List.getElem?_mem (helem x hx)
    rw [soldOfItems, find_name_self hnd x.2 hmem]
  have hfstnd : (S.map Prod.fst).Nodup :=
    ((hperm.map Prod.fst).nodup_iff).mpr (List.nodup_enum_map_fst items)
  have hPne : S.Pairwise (fun x y => x.1 ≠ y.1) := List.pairwise_map.mp hfstnd
  have hPand : S.Pairwise (fun x y => topRel x y ∧ x.1 ≠ y.1) := hsorted.and hPne
  have hPtake : (S.take 5).Pairwise (fun x y => topRel x y ∧ x.1 ≠ y.1) :=
    List.Pairwise.sublist (List.take_sublist 5 S) hPand
  have hsort_eq : sortBySoldDesc items = S.map Prod.snd := rfl
  refine ⟨?_, ?_, ?_⟩
  · rw [hsort_eq, ← List.map_take]
    simp [hperm.length_eq]
  · rw [hsort_eq, ← List.map_take, List.map_map]
    refine List.pairwise_map.mpr ?_
    refine List.Pairwise.imp_of_mem ?_ hPtake
    intro x y hx hy hxy
    obtain ⟨hrel, hne⟩ := hxy
    simp only [Function.comp_apply]
    have hxS : x ∈ S := (List.take_sublist 5 S).subset hx
    have hyS : y ∈ S := (List.take_sublist 5 S).subset hy
    rcases hrel with hlt | ⟨heq, hle⟩
    · left
      rw [hsold x hxS, hsold y hyS]
      exact hlt
    · right
      constructor
      · rw [hsold x hxS, hsold y hyS]
        exact heq
      · rw [hidx x hxS, hidx y hyS]
        exact lt_of_le_of_ne hle hne
  · rw [hsort_eq, ← List.map_take, List.map_map]
    intro t ht
    rcases List.mem_map.mp ht with ⟨x, hx, rfl⟩
    have hxS : x ∈ S := (List.take_sublist 5 S).subset hx
    exact List.mem_map.mpr ⟨x.2, List.getElem?_mem (helem x hxS), rfl⟩

/-- C5: `top_selling_items` has length `min 5 (number of distinct
normalized item names)`, is ordered by non-increasing `sold_qty`, and
among equal `sold_qty` preserves the first-encountered order of
aggregation (the order of `items`, purchases before sales): along the
list, each later name either sold strictly less or sold the same and
was first seen later. -/
theorem c5_top_selling_items (purchase_data sales_data : List Bill) :
    (analyze purchase_data sales_data).top_selling_items.length =
      min 5 (analyze purchase_data sales_data).items.length ∧
    (analyze purchase_data sales_data).top_selling_items.Pairwise (fun a b =>
      soldOf (analyze purchase_data sales_data) b <
        soldOf (analyze purchase_data sales_data) a ∨
      (soldOf (analyze purchase_data sales_data) a =
          soldOf (analyze purchase_data sales_data) b ∧
        ((analyze purchase_data sales_data).items.map InventoryItem.item_name).indexOf a <
          ((analyze purchase_data sales_data).items.map InventoryItem.item_name).indexOf b)) ∧
    ∀ t ∈ (analyze purchase_data sales_data).top_selling_items,
      t ∈ (analyze purchase_data sales_data).items.map InventoryItem.item_name := by
  have hnames_eq : (analyze purchase_data sales_data).items.map InventoryItem.item_name =
      mapKeys (itemMap purchase_data sales_data) := by
    rw [analyze_items, cml_out, List.map_map, List.map_map, mapKeys]
    refine List.map_congr_left (fun q hq => ?_)
    exact (itemMap_inv purchase_data sales_data).2 q hq
  have hnd : ((analyze purchase_data sales_data).items.map InventoryItem.item_name).Nodup := by
    rw [hnames_eq]
    exact (itemMap_inv purchase_data sales_data).1
  have htops : (analyze purchase_data sales_data).top_selling_items =
      ((sortBySoldDesc ((analyze purchase_data sales_data).items)).take 5).map
        InventoryItem.item_name := rfl
  have hsoldOf : soldOf (analyze purchase_data sales_data) =
      soldOfItems (analyze purchase_data sales_data).items := rfl
  obtain ⟨h1, h2, h3⟩ := sortBySoldDesc_spec (analyze purchase_data sales_data).items hnd
  refine ⟨?_, ?_, ?_⟩
  · rw [htops]
    exact h1
  · rw [htops, hsoldOf]
    exact h2
  · rw [htops]
    exact h3

set_option maxRecDepth 8000 in
/-- Witness for C5: three items sold 2, 7 and 7; the top list is
`["a", "c", "b"]` and contains `"a"`. -/
theorem c5_witness :
    (analyze []
        [{ line_items := [{ item_name := "B", quantity := 2 }, { item_name := "A", quantity := 7 },
                          { item_name := "C", quantity := 7 }], date := "" }]).top_selling_items.length =
      min 5 (analyze []
        [{ line_items := [{ item_name := "B", quantity := 2 }, { item_name := "A", quantity := 7 },
                          { item_name := "C", quantity := 7 }], date := "" }]).items.length ∧
    "a" ∈ (analyze []
        [{ line_items := [{ item_name := "B", quantity := 2 }, { item_name := "A", quantity := 7 },
                          { item_name := "C", quantity := 7 }], date := "" }]).items.map
        InventoryItem.item_name :=
  ⟨(c5_top_selling_items []
      [{ line_items := [{ item_name := "B", quantity := 2 }, { item_name := "A", quantity := 7 },
                        { item_name := "C", quantity := 7 }], date := "" }]).1,
   (c5_top_selling_items []
      [{ line_items := [{ item_name := "B", quantity := 2 }, { item_name := "A", quantity := 7 },
                        { item_name := "C", quantity := 7 }], date := "" }]).2.2
     "a" (by with_unfolding_all decide)⟩
